import Mathlib

/-!
Verification development for the query-description / drill-down core of the
repository (source: `src/unnamed/part_000`).

The file shallowly embeds, in order:
* the JS value fragments manipulated by the description generator
  (`joinList`, `conjunctList`, the falsy filter, `join("")`),
* the metadata-driven description generator (`generateQueryDescription` and
  its section functions),
* the server-described-query filter formatter (`formatFilterDescription`),
* the structured-query drill-down utilities (`addOrUpdateFilter`,
  `addOrUpdateBreakout`, `distribution`, `updateDateTimeFilter`) together
  with a model of the moment-timezone date arithmetic they use.

Machine integers do not occur: the JS numbers involved are exact integers
(timestamps in milliseconds, ids, limits), embedded as `Int`.
-/

namespace Metabase

/-- A JS value appearing in a description array: either a string fragment or
a number (limits and, in our embedding, millisecond timestamps).  The JSX
variants of the source wrap some fragments in styled spans; every claim here
concerns plain-string mode (`options.jsx = false`), whose fragments carry the
same text, so fragments are just the underlying values. -/
inductive Fragment where
  | str (s : String)
  | num (n : Int)
deriving DecidableEq, Repr

/-- Stringification of a single fragment, as performed by
`Array.prototype.join("")` on the final flattened description array. -/
def Fragment.render : Fragment → String
  | .str s => s
  | .num n => toString n

/-- JS truthiness of a fragment, as tested by the `.filter(s => !!s)` step of
`generateQueryDescription`: the empty string and the number 0 are falsy. -/
def Fragment.truthy : Fragment → Bool
  | .str s => s ≠ ""
  | .num n => n ≠ 0

/-- `description.join("")`: concatenation of the rendered fragments. -/
def renderFrags : List Fragment → String
  | [] => ""
  | f :: l => f.render ++ renderFrags l

/-- JS `Array.prototype.toString` of a (flattened) fragment array, used when
an array is coerced to a string (`join(", ")` over nested arrays, string
concatenation in the order-by description): elements joined with ",". -/
def jsArrToString (l : List Fragment) : String :=
  String.intercalate "," (l.map Fragment.render)

/-- JS `list.join(sep)` where the elements are themselves fragment arrays
(each element is coerced via `jsArrToString`). -/
def jsJoin (sep : String) (items : List (List Fragment)) : String :=
  String.intercalate sep (items.map jsArrToString)

/-- Embedding of the source helper `joinList(list, joiner)`: the elements of
`list` interleaved with the joiner.  The source keeps the elements as nested
arrays and flattens later; the embedding keeps the result pre-flattened,
which is what every consumer observes. -/
def joinList (list : List (List Fragment)) (joiner : String) : List Fragment :=
  match list with
  | [] => []
  | [x] => x
  | x :: rest => x ++ [Fragment.str joiner] ++ joinList rest joiner

/-- Embedding of the source helper `conjunctList(list, conjunction)`.
`none` models the `null` returned for an empty list.  For 3+ items the
source computes `list.slice(0, -1).join(", ")`, coercing each non-final item
to a string with JS array-to-string semantics (`jsJoin`). -/
def conjunctList (list : List (List Fragment)) (conjunction : String) :
    Option (List Fragment) :=
  match list with
  | [] => none
  | [x] => some x
  | [x, y] => some (x ++ [Fragment.str " ", Fragment.str conjunction, Fragment.str " "] ++ y)
  | _ => some ([Fragment.str (jsJoin ", " list.dropLast), Fragment.str ", ",
      Fragment.str conjunction, Fragment.str " "] ++ (list.getLast?.getD []))

/-- `suffix.isSuffixOf s` on the character lists (JS `String.endsWith`). -/
def strEndsWith (s suffixStr : String) : Bool :=
  suffixStr.data.isSuffixOf s.data

/-- Model of the external `inflection.pluralize` library call: a name already
ending in "s" is kept, otherwise "s" is appended.  This agrees with the
library on every name occurring in the claims ("Orders", "row"). -/
def pluralize (s : String) : String :=
  if strEndsWith s "s" then s else s ++ "s"

/-- Model of the external `inflection.inflect(word, count)` library call:
the word itself for count 1, its plural otherwise. -/
def inflect (word : String) (count : Int) : String :=
  if count = 1 then word else pluralize word

/-! ## Table metadata and field references -/

/-- A field definition from table metadata: the displayable name of a
column. -/
structure FieldDef where
  id : Int
  display_name : String
deriving DecidableEq, Repr

/-- A named entity (metric or segment) from table metadata: an id resolved
against the metadata lookup tables, carrying a display name. -/
structure NamedEntity where
  id : Int
  name : String
deriving DecidableEq, Repr

/-- Table metadata: display name of the table, the field definitions, and the
`metrics` and `segments` lookup tables.  Read-only reference data. -/
structure TableMetadata where
  display_name : String
  fields : List FieldDef
  metrics : List NamedEntity
  segments : List NamedEntity
deriving DecidableEq, Repr

/-- Modelled from the spec: a Field Reference (spec section 3) is "a tagged
value identifying a column, either directly, through a join path (sequence of
intermediate field definitions), or wrapped with a temporal-unit or
binning-strategy option".  The MBQL clause `["field", id, options]` and the
`FieldDimension` wrapper of `metabase-lib` are not under `src/`; we embed a
reference as the target field id, an optional foreign-key join path of field
ids, an optional temporal unit and a default-binning flag. -/
structure FieldRef where
  path : List Int := []
  id : Int
  temporalUnit : Option String := none
  binning : Bool := false
deriving DecidableEq, Repr

/-- Modelled from the spec: the result of the Field/Reference Resolver
(spec section 4.1) — "a resolution result containing the terminal field
definition, the join path traversed (possibly empty), and an optional
temporal unit". -/
structure FieldTarget where
  path : List FieldDef
  field : FieldDef
  unit : Option String
deriving DecidableEq, Repr

/-- Look up a field id in the metadata's field definitions
(first match, as in the JS lookups). -/
def lookupField (m : TableMetadata) (id : Int) : Option FieldDef :=
  m.fields.find? (fun fd => fd.id == id)

/-- Resolve a join path of field ids; any missing id fails the resolution. -/
def resolvePath (m : TableMetadata) : List Int → Option (List FieldDef)
  | [] => some []
  | id :: rest =>
    match lookupField m id, resolvePath m rest with
    | some fd, some fds => some (fd :: fds)
    | _, _ => none

/-- Modelled from the spec: `FIELD_REF.getFieldTarget` of `metabase-lib`
(not under `src/`) resolves a field reference against table metadata,
failing (throwing, in JS) "at any step (missing table, missing field id,
broken join path)" per spec section 4.1.  The failure is modelled as
`none`. -/
def getFieldTarget (m : TableMetadata) (f : FieldRef) : Option FieldTarget :=
  match resolvePath m f.path, lookupField m f.id with
  | some path, some fd => some ⟨path, fd, f.temporalUnit⟩
  | _, _ => none

/-- Modelled from the spec: `stripId` of `metabase/lib/formatting` (not under
`src/`).  Spec section 4.1 only requires a displayable field name; the helper
strips a trailing " ID" from the raw column name. -/
def stripId (s : String) : String :=
  if strEndsWith s " ID" then ⟨s.data.take (s.data.length - 3)⟩ else s

/-- Embedding of `formatField(fieldDef)`: the stripped display name. -/
def formatField (fieldDef : FieldDef) : String :=
  stripId fieldDef.display_name

/-- Embedding of `getFieldName(tableMetadata, field, options)`: the joined
path and field names with " → " separators and an optional " (unit)" suffix;
a failed resolution is caught and degrades to the literal
"[Unknown Field]". -/
def getFieldName (m : TableMetadata) (f : FieldRef) : List Fragment :=
  match getFieldTarget m f with
  | some target =>
    (target.path.map (fun fd => [Fragment.str (formatField fd), Fragment.str " → "])).flatten ++
      [Fragment.str (formatField target.field)] ++
      (match target.unit with
       | some u => [Fragment.str (" (" ++ u ++ ")")]
       | none => [])
  | none => [Fragment.str "[Unknown Field]"]

/-! ## Clause types and the structured query -/

/-- An aggregation clause (spec section 3): "a tagged variant — one of
{raw-rows, count, cumulative-count, avg, distinct, stddev, sum,
cumulative-sum, max, min, metric-reference, named-wrapper,
arbitrary-expression}".  `named` is an `aggregation-options` wrapper carrying
a display name; `options` is one without a name; `expr` is an arbitrary
expression clause handled by the external Expression Formatter. -/
inductive AggClause where
  | rows
  | count
  | cumCount
  | avg (f : FieldRef)
  | distinct (f : FieldRef)
  | stddev (f : FieldRef)
  | sum (f : FieldRef)
  | cumSum (f : FieldRef)
  | maxOf (f : FieldRef)
  | minOf (f : FieldRef)
  | metric (id : Int)
  | named (inner : AggClause) (name : String)
  | options (inner : AggClause)
  | expr (s : String)
deriving DecidableEq, Repr

/-- Modelled from the spec: the Expression Formatter is an "external
collaborator, treated as a black box string formatter" (spec section 2); we
carry its output on the expression clause itself. -/
def formatExpression : AggClause → String
  | .expr s => s
  | _ => ""

/-- A filter clause (spec section 3): "a tagged variant — boolean connective
(`and`/`or`, variadic), comparison (operator + field-reference + operands),
`segment`, or range-shorthand (`between` wrapping a relative-offset
expression)".  `op` covers every comparison operator (the description code
only inspects `filter[1]`); operands are embedded as integers (the ids,
numbers and millisecond timestamps the claims use). -/
inductive FilterClause where
  | andC (cs : List FilterClause)
  | orC (cs : List FilterClause)
  | segment (id : Int)
  | betweenOffset (f : FieldRef) (args : List Int)
  | op (name : String) (f : FieldRef) (args : List Int)

/-- A sort target: a plain field reference or an aggregate reference
(`FIELD_REF.isAggregateField`). -/
inductive OrderTarget where
  | fieldT (f : FieldRef)
  | aggT (idx : Int)
deriving DecidableEq, Repr

/-- The structured query (spec section 3): "an ordered expression tree with
named clause groups".  The filter group is kept in canonical list form — the
list returned by `QUERY.getFilters` / `StructuredQuery.filters()` (both of
`metabase-lib`, not under `src/`), i.e. the top-level conjuncts without the
implied "and"; `getFilterDescription` re-wraps it in an explicit "and", so
the two source representations coincide on this form. -/
structure SQuery where
  aggregation : List AggClause := []
  breakout : List FieldRef := []
  filters : List FilterClause := []
  orderBy : List (String × OrderTarget) := []
  limit : Option Int := none

/-! ## Metadata-driven description generator -/

/-- Embedding of `getTableDescription`: the pluralized table display name. -/
def getTableDescription (m : TableMetadata) (_q : SQuery) : Option (List Fragment) :=
  some [Fragment.str (pluralize m.display_name)]

/-- The per-clause body of `getAggregationDescription`: unwrap an
`aggregation-options` wrapper (a named one yields its display name), resolve
a metric reference against the metadata's metric lookup (falling back to
"[Unknown Metric]"), dispatch the named variants, and hand anything else to
the Expression Formatter. -/
def aggClauseDescription (m : TableMetadata) (a : AggClause) : List Fragment :=
  match a with
  | .named _ name => [Fragment.str name]
  | .options inner => aggBaseDescription m inner
  | other => aggBaseDescription m other
where
  /-- The metric lookup and tag switch applied after unwrapping. -/
  aggBaseDescription (m : TableMetadata) (a : AggClause) : List Fragment :=
    match a with
    | .metric id =>
      [Fragment.str (((m.metrics.find? (fun mt => mt.id == id)).map (·.name)).getD
        "[Unknown Metric]")]
    | .rows => [Fragment.str "Raw data"]
    | .count => [Fragment.str "Count"]
    | .cumCount => [Fragment.str "Cumulative count"]
    | .avg f => Fragment.str "Average of " :: getFieldName m f
    | .distinct f => Fragment.str "Distinct values of " :: getFieldName m f
    | .stddev f => Fragment.str "Standard deviation of " :: getFieldName m f
    | .sum f => Fragment.str "Sum of " :: getFieldName m f
    | .cumSum f => Fragment.str "Cumulative sum of " :: getFieldName m f
    | .maxOf f => Fragment.str "Maximum of " :: getFieldName m f
    | .minOf f => Fragment.str "Minimum of " :: getFieldName m f
    | other => [Fragment.str (formatExpression other)]

/-- Embedding of `getAggregationDescription`: the clause descriptions joined
by the "and" conjunction rule.  `QUERY.getAggregations` (of `metabase-lib`,
not under `src/`) returns the query's aggregation clause list. -/
def getAggregationDescription (m : TableMetadata) (q : SQuery) : Option (List Fragment) :=
  conjunctList (q.aggregation.map (aggClauseDescription m)) "and"

/-- Embedding of `getBreakoutDescription`: "Grouped by " and the breakout
field names joined with " and "; omitted (JS `undefined`) when there are no
breakouts. -/
def getBreakoutDescription (m : TableMetadata) (q : SQuery) : Option (List Fragment) :=
  if q.breakout.length > 0 then
    some (Fragment.str "Grouped by " :: joinList (q.breakout.map (getFieldName m)) " and ")
  else none

mutual

/-- Embedding of `getFilterClauseDescription`: connectives recurse and join
by the matching conjunction rule; a `segment` resolves against the
metadata's segment lookup (falling back to "[Unknown Segment]"); a `between`
wrapping a relative offset renders only its field name; any other clause
renders only its field name.  A `null` from `conjunctList` on an empty
connective flattens to nothing downstream; it is modelled as `[]`. -/
def getFilterClauseDescription (m : TableMetadata) : FilterClause → List Fragment
  | .andC cs => (conjunctList (filterClauseDescriptions m cs) "and").getD []
  | .orC cs => (conjunctList (filterClauseDescriptions m cs) "or").getD []
  | .segment id =>
    [Fragment.str (((m.segments.find? (fun sg => sg.id == id)).map (·.name)).getD
      "[Unknown Segment]")]
  | .betweenOffset f _ => getFieldName m f
  | .op _ f _ => getFieldName m f

/-- The `filter.slice(1).map(...)` step of `getFilterClauseDescription`. -/
def filterClauseDescriptions (m : TableMetadata) : List FilterClause → List (List Fragment)
  | [] => []
  | c :: cs => getFilterClauseDescription m c :: filterClauseDescriptions m cs

end

/-- Embedding of `getFilterDescription`: prepend the implied "and" to the
filter list and render it when at least one filter is present. -/
def getFilterDescription (m : TableMetadata) (q : SQuery) : Option (List Fragment) :=
  if q.filters.length > 0 then
    some (Fragment.str "Filtered by " ::
      getFilterClauseDescription m (FilterClause.andC q.filters))
  else none

/-- Embedding of `getOrderByDescription`: "Sorted by " and each
(direction, target) pair rendered as "name direction", joined with " and ".
The JS `name + " "` coerces the name array to a string (and a `null`
aggregation description to the text "null"). -/
def getOrderByDescription (m : TableMetadata) (q : SQuery) : Option (List Fragment) :=
  if q.orderBy.length > 0 then
    some (Fragment.str "Sorted by " :: joinList
      (q.orderBy.map (fun ob =>
        let nameStr :=
          match ob.2 with
          | .aggT _ =>
            match getAggregationDescription m q with
            | some l => jsArrToString l
            | none => "null"
          | .fieldT f => jsArrToString (getFieldName m f)
        [Fragment.str (nameStr ++ " " ++
          (if ob.1 = "asc" then "ascending" else "descending"))])) " and ")
  else none

/-- Embedding of `getLimitDescription`: the literal count (a number
fragment) followed by a space and the inflected unit word. -/
def getLimitDescription (_m : TableMetadata) (q : SQuery) : Option (List Fragment) :=
  match q.limit with
  | some n => some [Fragment.num n, Fragment.str " ", Fragment.str (inflect "row" n)]
  | none => none

/-- The `sectionFns` dispatch table of `generateQueryDescription`. -/
def sectionFn (sec : String) (m : TableMetadata) (q : SQuery) : Option (List Fragment) :=
  match sec with
  | "table" => getTableDescription m q
  | "aggregation" => getAggregationDescription m q
  | "breakout" => getBreakoutDescription m q
  | "filter" => getFilterDescription m q
  | "order-by" => getOrderByDescription m q
  | "limit" => getLimitDescription m q
  | _ => none

/-- The default section order of `generateQueryDescription`. -/
def defaultSections : List String :=
  ["table", "aggregation", "breakout", "filter", "order-by", "limit"]

/-- Embedding of `generateQueryDescription(tableMetadata, query, options)` in
plain-string mode: missing metadata yields ""; each requested section is
rendered, flattened, stripped of falsy fragments and dropped when empty; the
remaining sections are joined with ", " and the flattened result is joined
into a single string. -/
def generateQueryDescription (m : Option TableMetadata) (q : SQuery)
    (sections : List String := defaultSections) : String :=
  match m with
  | none => ""
  | some m =>
    let secs := (sections.map (fun s =>
      ((sectionFn s m q).getD []).filter Fragment.truthy)).filter
      (fun s => s.length > 0)
    renderFrags (joinList secs ", ")

/-! ## Server-described-query filter formatter -/

/-- An entry of the server-computed filter payload: a pre-resolved segment
display string or field display string (spec section 4.3). -/
inductive ServerFilter where
  | segmentE (s : String)
  | fieldE (s : String)
deriving DecidableEq, Repr

/-- The display string carried by a payload entry. -/
def ServerFilter.arg : ServerFilter → String
  | .segmentE s => s
  | .fieldE s => s

/-- Embedding of `formatFilterDescription({ filter })`: empty for a missing
or empty payload; otherwise "Filtered by " and the entry display strings
joined with ", ". -/
def formatFilterDescription (filter : List ServerFilter) : List Fragment :=
  if filter.length = 0 then []
  else
    Fragment.str "Filtered by " ::
      joinList (filter.map (fun f => [Fragment.str f.arg])) ", "

/-! ## Model of moment-timezone date arithmetic

Timestamps are milliseconds since the Unix epoch (UTC, no DST), embedded as
`Int`.  Calendar conversions use the standard civil-calendar algorithms;
divisions are spelled out (`Int.fdiv` floors, `Int.div` truncates toward
zero, matching moment's `absFloor`). -/

/-- A civil (proleptic Gregorian) date. -/
structure Civil where
  y : Int
  m : Int
  d : Int
deriving DecidableEq, Repr

/-- Civil date to days since 1970-01-01. -/
def daysFromCivil (c : Civil) : Int :=
  let y := if c.m ≤ 2 then c.y - 1 else c.y
  let era := Int.fdiv y 400
  let yoe := y - era * 400
  let mp := Int.emod (c.m + 9) 12
  let doy := Int.fdiv (153 * mp + 2) 5 + c.d - 1
  let doe := yoe * 365 + Int.fdiv yoe 4 - Int.fdiv yoe 100 + doy
  era * 146097 + doe - 719468

/-- Days since 1970-01-01 to civil date. -/
def civilFromDays (days : Int) : Civil :=
  let z := days + 719468
  let era := Int.fdiv z 146097
  let doe := z - era * 146097
  let yoe := Int.fdiv (doe - Int.fdiv doe 1460 + Int.fdiv doe 36524 - Int.fdiv doe 146096) 365
  let y := yoe + era * 400
  let doy := doe - (365 * yoe + Int.fdiv yoe 4 - Int.fdiv yoe 100)
  let mp := Int.fdiv (5 * doy + 2) 153
  let d := doy - Int.fdiv (153 * mp + 2) 5 + 1
  let mo := if mp < 10 then mp + 3 else mp - 9
  ⟨if mo ≤ 2 then y + 1 else y, mo, d⟩

/-- Whole days part of a timestamp (floor). -/
def dayOfMs (t : Int) : Int := Int.fdiv t 86400000

/-- Time-of-day part of a timestamp (non-negative remainder). -/
def msOfDay (t : Int) : Int := Int.emod t 86400000

/-- Gregorian leap year. -/
def isLeap (y : Int) : Bool :=
  Int.emod y 4 = 0 ∧ (Int.emod y 100 ≠ 0 ∨ Int.emod y 400 = 0)

/-- Days in a month. -/
def daysInMonth (y m : Int) : Int :=
  if m = 2 then (if isLeap y then 29 else 28)
  else if m = 4 ∨ m = 6 ∨ m = 9 ∨ m = 11 then 30
  else 31

/-- moment's month addition: advance the month, clamping the day-of-month to
the target month's length; the time of day is preserved. -/
def addMonths (n : Int) (t : Int) : Int :=
  let c := civilFromDays (dayOfMs t)
  let total := c.y * 12 + (c.m - 1) + n
  let y := Int.fdiv total 12
  let m := Int.emod total 12 + 1
  let d := min c.d (daysInMonth y m)
  daysFromCivil ⟨y, m, d⟩ * 86400000 + msOfDay t

/-- moment's `add(n, unit)`: fixed lengths for minute/hour/day/week,
calendar arithmetic for month/quarter/year, and a no-op for an unrecognized
unit. -/
def addUnit (n : Int) (unit : String) (t : Int) : Int :=
  match unit with
  | "minute" => t + n * 60000
  | "hour" => t + n * 3600000
  | "day" => t + n * 86400000
  | "week" => t + n * 604800000
  | "month" => addMonths n t
  | "quarter" => addMonths (3 * n) t
  | "year" => addMonths (12 * n) t
  | _ => t

/-- moment's `startOf(unit)` in UTC.  Weeks start on Sunday (the `en`
locale); 1970-01-01 was a Thursday.  An unrecognized unit is a no-op. -/
def startOfUnit (unit : String) (t : Int) : Int :=
  match unit with
  | "minute" => t - Int.emod t 60000
  | "hour" => t - Int.emod t 3600000
  | "day" => t - Int.emod t 86400000
  | "week" => (dayOfMs t - Int.emod (dayOfMs t + 4) 7) * 86400000
  | "month" =>
    let c := civilFromDays (dayOfMs t)
    daysFromCivil ⟨c.y, c.m, 1⟩ * 86400000
  | "quarter" =>
    let c := civilFromDays (dayOfMs t)
    daysFromCivil ⟨c.y, c.m - Int.emod (c.m - 1) 3, 1⟩ * 86400000
  | "year" =>
    let c := civilFromDays (dayOfMs t)
    daysFromCivil ⟨c.y, 1, 1⟩ * 86400000
  | _ => t

/-- moment's `endOf(unit)` in UTC: the last millisecond of the enclosing
unit.  An unrecognized unit is a no-op. -/
def endOfUnit (unit : String) (t : Int) : Int :=
  match unit with
  | "minute" => startOfUnit "minute" t + 59999
  | "hour" => startOfUnit "hour" t + 3599999
  | "day" => startOfUnit "day" t + 86399999
  | "week" => startOfUnit "week" t + 604799999
  | "month" => addMonths 1 (startOfUnit "month" t) - 1
  | "quarter" => addMonths 3 (startOfUnit "quarter" t) - 1
  | "year" => addMonths 12 (startOfUnit "year" t) - 1
  | _ => t

/-- moment's internal `monthDiff(a, b)` for `a.diff(b, months-based-unit)`:
the anchor-interpolated month difference, returned as an exact rational
(numerator, positive denominator).  moment computes
`-(wholeMonthDiff + adjust)` with `wholeMonthDiff` taken from `b` minus `a`
and `adjust` the fractional overshoot between the two anchor months. -/
def monthDiffValue (a b : Int) : Int × Int :=
  let ca := civilFromDays (dayOfMs a)
  let cb := civilFromDays (dayOfMs b)
  let whole := (cb.y - ca.y) * 12 + (cb.m - ca.m)
  let anchor := addMonths whole a
  if b - anchor < 0 then
    let anchor2 := addMonths (whole - 1) a
    (-(whole * (anchor - anchor2)) - (b - anchor), anchor - anchor2)
  else
    let anchor2 := addMonths (whole + 1) a
    (-(whole * (anchor2 - anchor)) - (b - anchor), anchor2 - anchor)

/-- moment's `a.diff(b, unit)`: millisecond difference divided by the fixed
unit length for minute/hour/day/week, the anchored month difference for
month/quarter/year, each truncated toward zero (moment's `absFloor`), and
the raw millisecond difference for an unrecognized unit. -/
def momentDiff (a b : Int) (unit : String) : Int :=
  match unit with
  | "minute" => Int.tdiv (a - b) 60000
  | "hour" => Int.tdiv (a - b) 3600000
  | "day" => Int.tdiv (a - b) 86400000
  | "week" => Int.tdiv (a - b) 604800000
  | "month" =>
    let nd := monthDiffValue a b
    Int.tdiv nd.1 nd.2
  | "quarter" =>
    let nd := monthDiffValue a b
    Int.tdiv nd.1 (3 * nd.2)
  | "year" =>
    let nd := monthDiffValue a b
    Int.tdiv nd.1 (12 * nd.2)
  | _ => a - b

/-- moment's `a.isSame(b, unit)`: both timestamps lie in the same `unit`
bucket. -/
def momentIsSame (unit : String) (a b : Int) : Bool :=
  startOfUnit unit a = startOfUnit unit b

/-! ## Structured-query drill-down utilities -/

/-- Modelled from the spec: a displayed column as passed to the drill-down
utilities, carrying its field id, its current temporal unit (`column.unit`,
possibly absent) and the `isDate` / `isNumber` classification performed by
`metabase/lib/schema_metadata` (not under `src/`). -/
structure Column where
  id : Int
  unit : Option String := none
  isDate : Bool := false
  isNumber : Bool := false
deriving DecidableEq, Repr

/-- Modelled from the spec: `fieldRefForColumn` of
`metabase-lib/queries/utils/dataset` (not under `src/`) — the bare MBQL
field reference of a column (no options). -/
def fieldRefForColumn (col : Column) : FieldRef :=
  { id := col.id }

/-- Embedding of the source helper `fieldRefWithTemporalUnit(mbqlClause,
unit)`: set the reference's temporal unit (the `FieldDimension` parse of our
embedded references always succeeds). -/
def fieldRefWithTemporalUnit (f : FieldRef) (unit : String) : FieldRef :=
  { f with temporalUnit := some unit }

/-- Modelled from the spec: `fieldRefWithOption(ref, "binning",
{strategy: "default"})` — the reference bucketed by the default binning
strategy. -/
def fieldRefWithBinning (f : FieldRef) : FieldRef :=
  { f with binning := true }

/-- The base-dimension comparison `dimension.isSameBaseDimension(other)` of
`metabase-lib` (not under `src/`), modelled from the spec: two references
target the same base field/dimension when they agree on the underlying
column (id and join path), ignoring temporal-unit and binning options. -/
def isSameBaseDimension (a b : FieldRef) : Bool :=
  a.id == b.id && a.path == b.path

/-- `filter.dimension()`: the field reference a filter clause targets;
connectives and segment clauses have none (and a relative-offset `between`
does not parse as a plain field dimension). -/
def filterDimension : FilterClause → Option FieldRef
  | .op _ f _ => some f
  | _ => none

/-- The base-dimension test between an existing filter's dimension and the
new clause's `newFilter[1]`, as in the `addOrUpdateFilter` loop:
the existing dimension must be present and match. -/
def sameFilterDimension (existing newFilter : FilterClause) : Bool :=
  match filterDimension existing, filterDimension newFilter with
  | some d, some n => isSameBaseDimension d n
  | _, _ => false

/-- The replace-first-match-else-append traversal shared by
`addOrUpdateFilter` and `addOrUpdateBreakout`: walk the clause list; the
first clause satisfying `p` is replaced in place and the rest kept;
otherwise the new clause is appended. -/
def replaceOrAppend {α : Type} (p : α → Bool) (newClause : α) : List α → List α
  | [] => [newClause]
  | c :: cs => if p c then newClause :: cs else c :: replaceOrAppend p newClause cs

/-- Embedding of `addOrUpdateFilter(query, newFilter)`: replace the existing
filter on the same base dimension in place, else append a new filter. -/
def addOrUpdateFilter (q : SQuery) (newFilter : FilterClause) : SQuery :=
  let newFilters := replaceOrAppend (fun f => sameFilterDimension f newFilter) newFilter q.filters
  { q with filters := newFilters }

/-- Embedding of `addOrUpdateBreakout(query, newBreakout)`: replace the
existing breakout on the same base dimension in place, else append. -/
def addOrUpdateBreakout (q : SQuery) (newBreakout : FieldRef) : SQuery :=
  let newBreakouts := replaceOrAppend (fun b => isSameBaseDimension b newBreakout) newBreakout q.breakout
  { q with breakout := newBreakouts }

/-- Modelled from the spec: `StructuredQuery.clearAggregations` /
`clearBreakouts` / `clearSort` / `clearLimit` of `metabase-lib` (not under
`src/`) clear exactly their own clause group, and `aggregate` / `breakout`
append a clause to theirs (spec section 4.4). -/
def SQuery.clearAggregations (q : SQuery) : SQuery := { q with aggregation := [] }

/-- See `SQuery.clearAggregations`. -/
def SQuery.clearBreakouts (q : SQuery) : SQuery := { q with breakout := [] }

/-- See `SQuery.clearAggregations`. -/
def SQuery.clearSort (q : SQuery) : SQuery := { q with orderBy := [] }

/-- See `SQuery.clearAggregations`. -/
def SQuery.clearLimit (q : SQuery) : SQuery := { q with limit := none }

/-- See `SQuery.clearAggregations`. -/
def SQuery.aggregate (q : SQuery) (a : AggClause) : SQuery :=
  { q with aggregation := q.aggregation ++ [a] }

/-- See `SQuery.clearAggregations`. -/
def SQuery.addBreakout (q : SQuery) (b : FieldRef) : SQuery :=
  { q with breakout := q.breakout ++ [b] }

/-- Embedding of `distribution(question, column)` on its structured-query
branch (the question wrapper and the final `setDisplay("bar")` are UI
state): pick the bucketed breakout reference — by month if the column is
temporal, by default binning if numeric, bare otherwise — then clear
aggregations, breakouts, sort and limit, aggregate by count and add the
breakout. -/
def distribution (q : SQuery) (col : Column) : SQuery :=
  let breakoutRef :=
    if col.isDate then fieldRefWithTemporalUnit (fieldRefForColumn col) "month"
    else if col.isNumber then fieldRefWithBinning (fieldRefForColumn col)
    else fieldRefForColumn col
  ((((q.clearAggregations).clearBreakouts).clearSort).clearLimit).aggregate
    AggClause.count |>.addBreakout breakoutRef

/-! ## Temporal-unit selection (`updateDateTimeFilter`) -/

/-- The minimum number of intervals the selected range must span
("min number of points when switching units"). -/
def MIN_INTERVALS : Int := 4

/-- The ordered unit ladder of the source. -/
def UNITS : List String := ["minute", "hour", "day", "week", "month", "quarter", "year"]

/-- JS `Array.prototype.indexOf` (first index, -1 when absent). -/
def indexOfFrom (u : String) : List String → Int → Int
  | [], _ => -1
  | v :: vs, i => if v = u then i else indexOfFrom u vs (i + 1)

/-- The index of a unit in the ladder, -1 when it is not a ladder unit. -/
def unitIndex (u : String) : Int := indexOfFrom u UNITS 0

/-- Embedding of `getNextUnit(unit)`:
`UNITS[Math.max(0, UNITS.indexOf(unit) - 1)]`. -/
def getNextUnit (u : String) : String :=
  UNITS.getD (Int.toNat (max 0 (unitIndex u - 1))) "minute"

/-- Termination measure for the unit-stepping loop: the ladder index, with
any non-ladder unit placed above the whole ladder (its first step lands on
"minute"). -/
def unitMeasure (u : String) : Nat :=
  if unitIndex u < 0 then 8 else Int.toNat (unitIndex u)

/-- `indexOf` of an absent element is -1. -/
theorem indexOfFrom_of_not_mem (u : String) (l : List String) (i : Int) (h : u ∉ l) :
    indexOfFrom u l i = -1 := by
  induction l generalizing i with
  | nil => rfl
  | cons v vs ih =>
    rw [indexOfFrom]
    rw [if_neg (by
      intro hv
      exact h (by rw [hv]; exact List.mem_cons_self u vs))]
    exact ih (i + 1) (fun hm => h (List.mem_cons_of_mem v hm))

/-- The unit index of a non-ladder unit is -1. -/
theorem unitIndex_of_not_mem (u : String) (h : u ∉ UNITS) : unitIndex u = -1 :=
  indexOfFrom_of_not_mem u UNITS 0 h

/-- A unit off the ladder steps to "minute". -/
theorem getNextUnit_of_not_mem (u : String) (h : u ∉ UNITS) :
    getNextUnit u = "minute" := by
  rw [getNextUnit, unitIndex_of_not_mem u h]
  rfl

/-- Stepping from a unit distinct from its successor strictly decreases the
termination measure. -/
theorem unitMeasure_getNextUnit_lt (u : String) (h : u ≠ getNextUnit u) :
    unitMeasure (getNextUnit u) < unitMeasure u := by
  by_cases hu : u ∈ UNITS
  · fin_cases hu <;> revert h <;> decide
  · rw [getNextUnit_of_not_mem u hu]
    have h1 : unitMeasure "minute" = 0 := by decide
    have h2 : unitMeasure u = 8 := by
      unfold unitMeasure
      rw [unitIndex_of_not_mem u hu]
      rfl
    rw [h1, h2]
    norm_num

/-- Embedding of the unit-stepping `while` loop of `updateDateTimeFilter`:
`while (unit !== getNextUnit(unit) && end.diff(start, unit) < MIN_INTERVALS)
unit = getNextUnit(unit)`, over an abstract interval count
`diff unit = end.diff(start, unit)` (start and end do not change inside the
loop).  Returns the final unit together with the number of executed loop
bodies. -/
def selectUnitAux (diff : String → Int) (unit : String) : String × Nat :=
  if unit ≠ getNextUnit unit ∧ diff unit < MIN_INTERVALS then
    let r := selectUnitAux diff (getNextUnit unit)
    (r.1, r.2 + 1)
  else
    (unit, 0)
termination_by unitMeasure unit
decreasing_by exact unitMeasure_getNextUnit_lt unit (by tauto)

/-- The unit the loop settles on. -/
def selectUnit (diff : String → Int) (unit : String) : String :=
  (selectUnitAux diff unit).1

/-- The number of loop bodies the loop executes. -/
def selectUnitSteps (diff : String → Int) (unit : String) : Nat :=
  (selectUnitAux diff unit).2

/-- The interval count the loop tests: the difference of the clamped range
bounds (`start.add(1, unit).startOf(unit)` and `end.endOf(unit)`) in the
candidate unit. -/
def clampedDiff (u : String) (s e : Int) : String → Int :=
  fun w => momentDiff (endOfUnit u e) (startOfUnit u (addUnit 1 u s)) w

/-- The breakout unit chosen by `updateDateTimeFilter` for a column whose
current unit is `u` and a selected range `[s, e]`. -/
def chosenUnit (u : String) (s e : Int) : String :=
  selectUnit (clampedDiff u s e) u

/-- Embedding of `updateDateTimeFilter(query, column, start, end)`.  The
`column.unit` truthiness test is a `match` plus a non-empty-string guard;
`format()` on the final bounds is modelled as the timestamp itself.  The
filter values follow the source: an "=" filter at the re-snapped start when
both re-snapped bounds fall in the same original-unit bucket, otherwise a
"between" filter over the re-snapped bounds. -/
def updateDateTimeFilter (q : SQuery) (col : Column) (s e : Int) : SQuery :=
  let fieldRef := fieldRefForColumn col
  match col.unit with
  | some u =>
    if u ≠ "" then
      let start1 := startOfUnit u (addUnit 1 u s)
      let end1 := endOfUnit u e
      let unit := chosenUnit u s e
      let q1 := addOrUpdateBreakout q (fieldRefWithTemporalUnit fieldRef unit)
      let start2 := startOfUnit u start1
      let end2 := startOfUnit u end1
      if start2 > end2 then q1
      else if momentIsSame u start2 end2 then
        addOrUpdateFilter q1 (FilterClause.op "=" (fieldRefWithTemporalUnit fieldRef u)
          [start2])
      else
        addOrUpdateFilter q1 (FilterClause.op "between" (fieldRefWithTemporalUnit fieldRef u)
          [start2, end2])
    else addOrUpdateFilter q (FilterClause.op "between" fieldRef [s, e])
  | none => addOrUpdateFilter q (FilterClause.op "between" fieldRef [s, e])

/-! ## Helper lemmas -/

theorem renderFrags_append (a b : List Fragment) :
    renderFrags (a ++ b) = renderFrags a ++ renderFrags b := by
  induction a with
  | nil => simp [renderFrags]
  | cons f l ih => simp [renderFrags, ih, String.append_assoc]

theorem intercalate_cons_cons (sep a b : String) (t : List String) :
    String.intercalate sep (a :: b :: t) = a ++ sep ++ String.intercalate sep (b :: t) := by
  induction t generalizing a b with
  | nil => simp [String.intercalate, String.intercalate.go]
  | cons c t ih =>
    simp only [String.intercalate, String.intercalate.go] at ih ⊢
    simpa [String.append_assoc] using ih a (b ++ sep ++ c)

theorem renderFrags_joinList_singletons (sep : String) (l : List String) :
    renderFrags (joinList (l.map fun s => [Fragment.str s]) sep) =
      String.intercalate sep l := by
  induction l with
  | nil => rfl
  | cons x t ih =>
    cases t with
    | nil =>
      simp [joinList, renderFrags, Fragment.render, String.intercalate,
        String.intercalate.go]
    | cons y t2 =>
      rw [intercalate_cons_cons]
      simp only [List.map_cons, joinList] at ih ⊢
      rw [renderFrags_append, renderFrags_append]
      rw [ih]
      simp [renderFrags, Fragment.render, String.append_assoc]

/-- The table section fragment is never falsy. -/
theorem pluralize_ne_empty (s : String) : pluralize s ≠ "" := by
  unfold pluralize
  split_ifs with h
  · intro he
    subst he
    revert h
    decide
  · intro he
    have hlen := congrArg String.length he
    rw [String.length_append] at hlen
    have h1 : ("s" : String).length = 1 := rfl
    have h0 : ("" : String).length = 0 := rfl
    omega

/-! ## C6: the Oxford-comma conjunction rule -/

/-- C6: for plain-string items, the conjunction joining used for aggregation
descriptions (`conjunctList` with conjunction "and") follows the
Oxford-comma rule exactly: 0 items are omitted (`null`), one item is itself,
two items join as "A and B", and 3+ items join comma-separated with a final
", and " before the last item. -/
theorem conjunctList_oxford_rule :
    conjunctList [] "and" = none ∧
    (∀ a : String, conjunctList [[Fragment.str a]] "and" = some [Fragment.str a]) ∧
    (∀ a b : String,
      renderFrags ((conjunctList [[Fragment.str a], [Fragment.str b]] "and").getD []) =
        a ++ " and " ++ b) ∧
    (∀ items : List String, 3 ≤ items.length →
      renderFrags ((conjunctList (items.map fun s => [Fragment.str s]) "and").getD []) =
        String.intercalate ", " items.dropLast ++ ", and " ++ (items.getLast?.getD "")) := by
  refine ⟨rfl, fun a => rfl, fun a b => ?_, fun items hlen => ?_⟩
  · show renderFrags ([Fragment.str a] ++
      [Fragment.str " ", Fragment.str "and", Fragment.str " "] ++ [Fragment.str b]) = _
    rw [renderFrags_append, renderFrags_append]
    simp [renderFrags, Fragment.render, String.append_assoc]
  · match items, hlen with
    | x :: y :: z :: t, _ =>
      show renderFrags ([Fragment.str (jsJoin ", "
          ((x :: y :: z :: t).map fun s => [Fragment.str s]).dropLast), Fragment.str ", ",
          Fragment.str "and", Fragment.str " "] ++
          (((x :: y :: z :: t).map fun s => [Fragment.str s]).getLast?.getD [])) = _
      rw [renderFrags_append]
      have hdrop : ((x :: y :: z :: t).map fun s => [Fragment.str s]).dropLast =
          (x :: y :: z :: t).dropLast.map fun s => [Fragment.str s] :=
        (List.map_dropLast _ _).symm
      have hlast : ((x :: y :: z :: t).map fun s => [Fragment.str s]).getLast? =
          ((x :: y :: z :: t).getLast?).map fun s => [Fragment.str s] :=
        List.getLast?_map _ _
      rw [hdrop, hlast]
      have hjs : ∀ l : List String,
          jsJoin ", " (l.map fun s => [Fragment.str s]) = String.intercalate ", " l := by
        intro l
        unfold jsJoin
        rw [List.map_map]
        have : (jsArrToString ∘ fun s => [Fragment.str s]) = fun s : String => s := by
          funext s
          simp [jsArrToString, Fragment.render, String.intercalate,
            String.intercalate.go]
        rw [this]
        simp
      rw [hjs]
      have hgl : (x :: y :: z :: t).getLast? = some ((x :: y :: z :: t).getLast (by simp)) := by
        rw [List.getLast?_eq_getLast]
      rw [hgl]
      simp [renderFrags, Fragment.render, String.append_assoc]

/-- Witness for C6 at concrete inputs. -/
theorem conjunctList_oxford_rule_witness :
    (3 ≤ (["A", "B", "C"] : List String).length) ∧
    renderFrags ((conjunctList ((["A", "B", "C"] : List String).map
        fun s => [Fragment.str s]) "and").getD []) =
      String.intercalate ", " (["A", "B", "C"] : List String).dropLast ++ ", and " ++
        ((["A", "B", "C"] : List String).getLast?.getD "") :=
  ⟨by decide, conjunctList_oxford_rule.2.2.2 ["A", "B", "C"] (by decide)⟩

/-! ## C9: the limit section -/

/-- C9 (amended): for a query with limit `n ≥ 0`, the limit section of
`generateQueryDescription`'s plain-string pipeline (the flattened section
after the falsy-fragment filter) renders as the numeral, a space, and
"row"/"rows" — except at `n = 0`, where the numeral fragment `0` is falsy
and is dropped, leaving " rows". -/
theorem limit_section_rendering (m : TableMetadata) (q : SQuery) (n : Int)
    (h : q.limit = some n) (hn : 0 ≤ n) :
    renderFrags (((sectionFn "limit" m q).getD []).filter Fragment.truthy) =
      if n = 0 then " rows"
      else toString n ++ " " ++ (if n = 1 then "row" else "rows") := by
  simp only [sectionFn, getLimitDescription, h, Option.getD_some]
  by_cases h0 : n = 0
  · subst h0
    decide
  · rw [if_neg h0]
    by_cases h1 : n = 1
    · subst h1
      decide
    · rw [if_neg h1]
      have hw : inflect "row" n = "rows" := by
        unfold inflect
        rw [if_neg h1]
        rfl
      simp [Fragment.truthy, h0, renderFrags, Fragment.render, hw, String.append_assoc]

/-- Witness for C9 at a concrete input. -/
theorem limit_section_rendering_witness :
    (({ limit := some 5 } : SQuery).limit = some 5 ∧ (0 : Int) ≤ 5) ∧
    renderFrags (((sectionFn "limit" ⟨"Order", [], [], []⟩
        ({ limit := some 5 } : SQuery)).getD []).filter Fragment.truthy) =
      if (5 : Int) = 0 then " rows"
      else toString (5 : Int) ++ " " ++ (if (5 : Int) = 1 then "row" else "rows") :=
  ⟨⟨rfl, by decide⟩,
    limit_section_rendering ⟨"Order", [], [], []⟩ { limit := some 5 } 5 rfl (by decide)⟩

/-- C9 counterexample: at limit 0 the numeral fragment is falsy and dropped,
so the plain-string output reads "Orders,  rows", not "Orders, 0 rows". -/
theorem limit_zero_drops_numeral :
    generateQueryDescription (some ⟨"Order", [], [], []⟩) ({ limit := some 0 } : SQuery) =
      "Orders,  rows" ∧
    generateQueryDescription (some ⟨"Order", [], [], []⟩) ({ limit := some 0 } : SQuery) ≠
      "Orders, 0 rows" ∧
    renderFrags (((sectionFn "limit" ⟨"Order", [], [], []⟩
        ({ limit := some 0 } : SQuery)).getD []).filter Fragment.truthy) = " rows" := by
  decide

/-! ## C10: termination of the unit-stepping loop -/

/-- On the ladder, a unit distinct from its successor steps to a ladder unit
whose index is exactly one smaller. -/
theorem getNextUnit_mem_and_index (u : String) (hu : u ∈ UNITS)
    (hne : u ≠ getNextUnit u) :
    getNextUnit u ∈ UNITS ∧ (unitIndex (getNextUnit u)).toNat + 1 = (unitIndex u).toNat := by
  fin_cases hu <;> revert hne <;> decide

/-- The loop executes no body at the bottom of the ladder. -/
theorem selectUnitSteps_minute (diff : String → Int) :
    selectUnitSteps diff "minute" = 0 := by
  unfold selectUnitSteps
  rw [selectUnitAux]
  rw [if_neg (fun hc => hc.1 (by decide))]

/-- On the ladder, the number of executed loop bodies is bounded by the unit
index. -/
theorem selectUnitSteps_le_index (diff : String → Int) :
    ∀ (n : Nat) (u : String), u ∈ UNITS → (unitIndex u).toNat = n →
      selectUnitSteps diff u ≤ n := by
  intro n
  induction n using Nat.strong_induction_on with
  | _ n ih =>
    intro u hu hidx
    unfold selectUnitSteps
    rw [selectUnitAux]
    split_ifs with hg
    · obtain ⟨hmem, hstep⟩ := getNextUnit_mem_and_index u hu hg.1
      have hlt : (unitIndex (getNextUnit u)).toNat < n := by omega
      have := ih _ hlt (getNextUnit u) hmem rfl
      unfold selectUnitSteps at this
      simpa using by omega
    · simp

/-- C10: the unit-stepping loop of `updateDateTimeFilter` terminates for
every input: `getNextUnit` maps "minute" (the first ladder unit) to itself
and every other ladder unit to the unit of strictly smaller index, and the
loop guard `unit !== getNextUnit(unit)` stops it at the ladder's end, so at
most 6 loop bodies execute regardless of the diff function (i.e. of the
start/end range). -/
theorem unit_stepping_terminates :
    getNextUnit "minute" = "minute" ∧
    (∀ u ∈ UNITS, u ≠ "minute" → unitIndex (getNextUnit u) < unitIndex u) ∧
    (∀ (diff : String → Int) (u : String), selectUnitSteps diff u ≤ 6) := by
  refine ⟨by decide, ?_, ?_⟩
  · intro u hu hne
    fin_cases hu <;> revert hne <;> decide
  · intro diff u
    by_cases hu : u ∈ UNITS
    · have hle : (unitIndex u).toNat ≤ 6 := by
        fin_cases hu <;> decide
      exact le_trans (selectUnitSteps_le_index diff _ u hu rfl) hle
    · unfold selectUnitSteps
      rw [selectUnitAux]
      split_ifs with hg
    -- off the ladder, the first step lands on "minute" and the loop stops
      · rw [getNextUnit_of_not_mem u hu]
        have h0 := selectUnitSteps_minute diff
        unfold selectUnitSteps at h0
        simp [h0]
      · simp

/-- Witness for C10 at concrete inputs. -/
theorem unit_stepping_terminates_witness :
    ("year" ∈ UNITS ∧ "year" ≠ "minute") ∧
    (unitIndex (getNextUnit "year") < unitIndex "year" ∧
      selectUnitSteps (fun _ => 0) "year" ≤ 6) :=
  ⟨⟨by decide, by decide⟩,
    ⟨unit_stepping_terminates.2.1 "year" (by decide) (by decide),
      unit_stepping_terminates.2.2 (fun _ => 0) "year"⟩⟩

/-! ## C3: end-to-end description of a concrete query -/

/-- The C3 metadata: the table is named "Orders", field 1 "Created At",
field 2 "Status". -/
def ordersMetadata : TableMetadata :=
  ⟨"Orders", [⟨1, "Created At"⟩, ⟨2, "Status"⟩], [], []⟩

/-- The C3 query: `{aggregation: [["count"]], breakout: [fieldA],
filter: ["and", ["=", fieldB, 5]], limit: 10}`. -/
def ordersQuery : SQuery :=
  { aggregation := [AggClause.count],
    breakout := [{ id := 1 }],
    filters := [FilterClause.op "=" { id := 2 } [5]],
    limit := some 10 }

/-- C3 counterexample: the generated plain-string description of the C3
query does not read "... Filtered by Status is 5 ..." — the filter clause
renders only the field name, never the operator or operand. -/
theorem orders_description_not_as_claimed :
    generateQueryDescription (some ordersMetadata) ordersQuery ≠
      "Orders, Count, Grouped by Created At, Filtered by Status is 5, 10 rows" := by
  decide

/-- C3 (amended): the generated plain-string description of the C3 query in
the default section order is exactly
"Orders, Count, Grouped by Created At, Filtered by Status, 10 rows". -/
theorem orders_description_exact :
    generateQueryDescription (some ordersMetadata) ordersQuery =
      "Orders, Count, Grouped by Created At, Filtered by Status, 10 rows" := by
  decide

/-! ## C8: graceful degradation on resolution failures -/

/-- C8: an unresolvable field reference, an unknown metric id and an unknown
segment id never abort description generation: each degrades to its literal
placeholder label while every other clause still renders. -/
theorem description_degrades_gracefully (dn : String)
    (fields : List FieldDef) (metrics segments : List NamedEntity)
    (mid sid : Int) (fr : FieldRef)
    (hm : ∀ mt ∈ metrics, mt.id ≠ mid)
    (hs : ∀ sg ∈ segments, sg.id ≠ sid)
    (hf : getFieldTarget ⟨dn, fields, metrics, segments⟩ fr = none) :
    generateQueryDescription (some ⟨dn, fields, metrics, segments⟩)
      { aggregation := [AggClause.metric mid, AggClause.count],
        breakout := [fr],
        filters := [FilterClause.segment sid] } =
      pluralize dn ++
        ", [Unknown Metric] and Count, Grouped by [Unknown Field], Filtered by [Unknown Segment]" := by
  have hm2 : metrics.find? (fun mt => mt.id == mid) = none :=
    List.find?_eq_none.mpr (fun x hx => by simp [hm x hx])
  have hs2 : segments.find? (fun sg => sg.id == sid) = none :=
    List.find?_eq_none.mpr (fun x hx => by simp [hs x hx])
  have htr : Fragment.truthy (Fragment.str (pluralize dn)) = true := by
    simp [Fragment.truthy, pluralize_ne_empty dn]
  simp only [generateQueryDescription, defaultSections, sectionFn, getTableDescription,
    getAggregationDescription, aggClauseDescription, aggClauseDescription.aggBaseDescription,
    hm2, getBreakoutDescription, getFieldName, hf, getFilterDescription,
    getFilterClauseDescription, filterClauseDescriptions, hs2, getOrderByDescription,
    getLimitDescription, conjunctList, joinList, renderFrags, Fragment.render, htr,
    List.map_cons, List.map_nil, List.filter, Option.getD_some, Option.getD_none,
    Option.map_none, Option.map_some]
  simp [Fragment.truthy, renderFrags, Fragment.render, joinList, String.append_assoc]

/-- Witness for C8 at concrete inputs: empty lookup tables, a field id with
no definition. -/
theorem description_degrades_gracefully_witness :
    ((∀ mt ∈ ([] : List NamedEntity), mt.id ≠ 42) ∧
      (∀ sg ∈ ([] : List NamedEntity), sg.id ≠ 43) ∧
      getFieldTarget ⟨"Order", [], [], []⟩ { id := 7 } = none) ∧
    generateQueryDescription (some ⟨"Order", [], [], []⟩)
      { aggregation := [AggClause.metric 42, AggClause.count],
        breakout := [{ id := 7 }],
        filters := [FilterClause.segment 43] } =
      pluralize "Order" ++
        ", [Unknown Metric] and Count, Grouped by [Unknown Field], Filtered by [Unknown Segment]" :=
  ⟨⟨fun mt hmt => absurd hmt (List.not_mem_nil mt),
    fun sg hsg => absurd hsg (List.not_mem_nil sg), rfl⟩,
    description_degrades_gracefully "Order" [] [] [] 42 43 { id := 7 }
      (fun mt hmt => absurd hmt (List.not_mem_nil mt))
      (fun sg hsg => absurd hsg (List.not_mem_nil sg)) rfl⟩

/-! ## C4: distribution -/

/-- C4 (amended): for a temporal column, `distribution` yields a query with
exactly one count aggregation, the single breakout on the column bucketed by
month, no sort and no limit — while the input query's filters are kept
unchanged (the source never clears filters). -/
theorem distribution_spec (q : SQuery) (col : Column) (h : col.isDate = true) :
    distribution q col =
      { aggregation := [AggClause.count],
        breakout := [fieldRefWithTemporalUnit (fieldRefForColumn col) "month"],
        filters := q.filters,
        orderBy := [],
        limit := none } := by
  simp [distribution, h, SQuery.clearAggregations, SQuery.clearBreakouts,
    SQuery.clearSort, SQuery.clearLimit, SQuery.aggregate, SQuery.addBreakout]

/-- A query carrying one filter, for the C4 counterexample. -/
def filteredQuery : SQuery := { filters := [FilterClause.op "=" { id := 9 } [7]] }

/-- A temporal column, for the C4 counterexample. -/
def dateColumn : Column := { id := 1, isDate := true }

/-- C4 counterexample: on a query that already carries a filter,
`distribution` returns a query that still contains that filter (the claim
asserts the result contains no filter). -/
theorem distribution_keeps_filters :
    dateColumn.isDate = true ∧
    (distribution filteredQuery dateColumn).filters.length = 1 ∧
    (distribution filteredQuery dateColumn).aggregation = [AggClause.count] ∧
    (distribution filteredQuery dateColumn).breakout =
      [fieldRefWithTemporalUnit (fieldRefForColumn dateColumn) "month"] ∧
    (distribution filteredQuery dateColumn).limit = none := by
  decide

/-- Witness for C4 at concrete inputs. -/
theorem distribution_spec_witness :
    ({ id := 2, isDate := true } : Column).isDate = true ∧
    distribution ({ limit := some 3 } : SQuery) { id := 2, isDate := true } =
      { aggregation := [AggClause.count],
        breakout := [fieldRefWithTemporalUnit
          (fieldRefForColumn { id := 2, isDate := true }) "month"],
        filters := ({ limit := some 3 } : SQuery).filters,
        orderBy := [],
        limit := none } :=
  ⟨rfl, distribution_spec { limit := some 3 } { id := 2, isDate := true } rfl⟩

/-! ## C5: add-or-replace filter -/

/-- Filters are compared against the new clause only through the new
clause's base dimension. -/
theorem sameFilterDimension_congr (f1 f2 : FilterClause) (r1 r2 : FieldRef)
    (h1 : filterDimension f1 = some r1) (h2 : filterDimension f2 = some r2)
    (hb : isSameBaseDimension r1 r2 = true) (f : FilterClause) :
    sameFilterDimension f f1 = sameFilterDimension f f2 := by
  have hb2 : r1.id = r2.id ∧ r1.path = r2.path := by
    unfold isSameBaseDimension at hb
    simpa using hb
  unfold sameFilterDimension
  rw [h1, h2]
  cases hd : filterDimension f with
  | none => rfl
  | some d =>
    dsimp only
    unfold isSameBaseDimension
    rw [hb2.1, hb2.2]

/-- A clause with a dimension matches itself. -/
theorem sameFilterDimension_self (f : FilterClause) (r : FieldRef)
    (h : filterDimension f = some r) : sameFilterDimension f f = true := by
  unfold sameFilterDimension
  rw [h]
  simp [isSameBaseDimension]

/-- Replacing twice is the same as replacing once with the final clause:
the second traversal finds the first clause at the position the first
traversal used. -/
theorem replaceOrAppend_twice {α : Type} (p : α → Bool) (f1 f2 : α)
    (hp : p f1 = true) (l : List α) :
    replaceOrAppend p f2 (replaceOrAppend p f1 l) = replaceOrAppend p f2 l := by
  induction l with
  | nil => simp [replaceOrAppend, hp]
  | cons c cs ih =>
    by_cases hc : p c = true
    · simp [replaceOrAppend, hc, hp]
    · simp [replaceOrAppend, hc, ih]

/-- The count of matching clauses after a replace-or-append: one when there
was none, otherwise unchanged. -/
theorem countP_replaceOrAppend {α : Type} (p : α → Bool) (nf : α)
    (hp : p nf = true) (l : List α) :
    (replaceOrAppend p nf l).countP p =
      if l.countP p = 0 then 1 else l.countP p := by
  induction l with
  | nil => simp [replaceOrAppend, hp]
  | cons c cs ih =>
    by_cases hc : p c = true
    · simp [replaceOrAppend, hc, hp, List.countP_cons]
    · simp [replaceOrAppend, hc, List.countP_cons, ih]

/-- C5 (amended): two add-or-replace calls with filters on the same base
dimension behave as a single call with the second filter (the second call
replaces the first filter in the position it occupies, appending nothing);
when the query held at most one filter on that dimension beforehand, the
result holds exactly one. -/
theorem addOrUpdateFilter_twice (q : SQuery) (f1 f2 : FilterClause) (r1 r2 : FieldRef)
    (h1 : filterDimension f1 = some r1) (h2 : filterDimension f2 = some r2)
    (hb : isSameBaseDimension r1 r2 = true)
    (hc : q.filters.countP (fun f => sameFilterDimension f f2) ≤ 1) :
    addOrUpdateFilter (addOrUpdateFilter q f1) f2 = addOrUpdateFilter q f2 ∧
    (addOrUpdateFilter (addOrUpdateFilter q f1) f2).filters.countP
      (fun f => sameFilterDimension f f2) = 1 := by
  have hpeq : (fun f => sameFilterDimension f f1) = (fun f => sameFilterDimension f f2) := by
    funext f
    exact sameFilterDimension_congr f1 f2 r1 r2 h1 h2 hb f
  have hp1 : sameFilterDimension f1 f2 = true := by
    unfold sameFilterDimension
    rw [h1, h2]
    exact hb
  have hp2 : sameFilterDimension f2 f2 = true := sameFilterDimension_self f2 r2 h2
  constructor
  · unfold addOrUpdateFilter
    simp only [hpeq]
    rw [replaceOrAppend_twice (fun f => sameFilterDimension f f2) f1 f2 hp1]
  · unfold addOrUpdateFilter
    simp only [hpeq]
    rw [countP_replaceOrAppend (fun f => sameFilterDimension f f2) f2 hp2,
      countP_replaceOrAppend (fun f => sameFilterDimension f f2) f1 hp1]
    rcases Nat.lt_or_ge (q.filters.countP (fun f => sameFilterDimension f f2)) 1 with hlt | hge
    · have h0 : q.filters.countP (fun f => sameFilterDimension f f2) = 0 := by omega
      simp [h0]
    · have h1c : q.filters.countP (fun f => sameFilterDimension f f2) = 1 := by omega
      simp [h1c]

/-- A query already holding two filters on field 5, for the C5
counterexample. -/
def dupFilterQuery : SQuery :=
  { filters := [FilterClause.op ">" { id := 5 } [1], FilterClause.op "<" { id := 5 } [9]] }

/-- C5 counterexample: on a query already holding two filters on the same
dimension, two add-or-replace calls with same-dimension filters leave two
filters on that dimension, not exactly one (only the first occurrence is
ever replaced). -/
theorem addOrUpdateFilter_twice_counterexample :
    sameFilterDimension (FilterClause.op "=" { id := 5 } [2])
      (FilterClause.op "=" { id := 5 } [3]) = true ∧
    (addOrUpdateFilter (addOrUpdateFilter dupFilterQuery
        (FilterClause.op "=" { id := 5 } [2]))
        (FilterClause.op "=" { id := 5 } [3])).filters.countP
      (fun f => sameFilterDimension f (FilterClause.op "=" { id := 5 } [3])) = 2 := by
  decide

/-- Witness for C5 at concrete inputs. -/
theorem addOrUpdateFilter_twice_witness :
    (filterDimension (FilterClause.op ">" ({ id := 6 } : FieldRef) [1]) =
        some { id := 6 } ∧
      filterDimension (FilterClause.op "<" ({ id := 6 } : FieldRef) [9]) =
        some { id := 6 } ∧
      isSameBaseDimension ({ id := 6 } : FieldRef) { id := 6 } = true ∧
      (SQuery.filters {}).countP
        (fun f => sameFilterDimension f (FilterClause.op "<" { id := 6 } [9])) ≤ 1) ∧
    (addOrUpdateFilter (addOrUpdateFilter {} (FilterClause.op ">" { id := 6 } [1]))
        (FilterClause.op "<" { id := 6 } [9]) =
      addOrUpdateFilter {} (FilterClause.op "<" { id := 6 } [9]) ∧
    (addOrUpdateFilter (addOrUpdateFilter {} (FilterClause.op ">" { id := 6 } [1]))
        (FilterClause.op "<" { id := 6 } [9])).filters.countP
      (fun f => sameFilterDimension f (FilterClause.op "<" { id := 6 } [9])) = 1) :=
  ⟨⟨rfl, rfl, by decide, by decide⟩,
    addOrUpdateFilter_twice {} (FilterClause.op ">" { id := 6 } [1])
      (FilterClause.op "<" { id := 6 } [9]) { id := 6 } { id := 6 }
      rfl rfl (by decide) (by decide)⟩

/-! ## C7: the server-described filter formatter -/

/-- Metadata resolving fields 1 and 2 to "A" and "B", for the C7
counterexample. -/
def abMetadata : TableMetadata := ⟨"T", [⟨1, "A"⟩, ⟨2, "B"⟩], [], []⟩

/-- A structured query with two filters resolving to "A" and "B". -/
def abQuery : SQuery :=
  { filters := [FilterClause.op "=" { id := 1 } [], FilterClause.op "=" { id := 2 } []] }

/-- The equivalent server payload carrying the same display strings. -/
def abPayload : List ServerFilter := [ServerFilter.fieldE "A", ServerFilter.fieldE "B"]

/-- C7 counterexample: on equivalent two-entry inputs, the metadata-driven
formatter produces "Filtered by A and B" while the server-described
formatter produces "Filtered by A, B" — the join rules differ. -/
theorem server_filter_join_differs :
    renderFrags ((getFilterDescription abMetadata abQuery).getD []) = "Filtered by A and B" ∧
    renderFrags (formatFilterDescription abPayload) = "Filtered by A, B" ∧
    renderFrags ((getFilterDescription abMetadata abQuery).getD []) ≠
      renderFrags (formatFilterDescription abPayload) := by
  decide

/-- C7 (amended): the server-described filter formatter joins its entries
with a plain ", " (never the and/Oxford conjunction rule of the
metadata-driven formatter); the two formatters agree on equivalent inputs
holding at most one entry. -/
theorem server_filter_formatter_spec :
    (∀ entries : List ServerFilter, 1 ≤ entries.length →
      renderFrags (formatFilterDescription entries) =
        "Filtered by " ++ String.intercalate ", " (entries.map ServerFilter.arg)) ∧
    (∀ (m : TableMetadata) (q : SQuery) (f : FilterClause) (e : ServerFilter),
      q.filters = [f] →
      renderFrags (getFilterClauseDescription m f) = e.arg →
      renderFrags ((getFilterDescription m q).getD []) =
        renderFrags (formatFilterDescription [e])) := by
  constructor
  · intro entries hlen
    match entries, hlen with
    | x :: t, _ =>
      unfold formatFilterDescription
      rw [if_neg (by simp)]
      have hmap : (x :: t).map (fun f => [Fragment.str f.arg]) =
          ((x :: t).map ServerFilter.arg).map (fun s => [Fragment.str s]) := by
        rw [List.map_map]
        rfl
      rw [renderFrags, hmap, renderFrags_joinList_singletons]
      rfl
  · intro m q f e hq he
    rw [getFilterDescription, hq]
    rw [if_pos (by simp)]
    show renderFrags (Fragment.str "Filtered by " ::
      getFilterClauseDescription m (FilterClause.andC [f])) = _
    rw [getFilterClauseDescription]
    show renderFrags (Fragment.str "Filtered by " ::
      ((conjunctList [getFilterClauseDescription m f] "and").getD [])) = _
    rw [conjunctList]
    simp only [Option.getD_some]
    rw [renderFrags, he]
    unfold formatFilterDescription
    rw [if_neg (by simp)]
    simp [renderFrags, joinList, Fragment.render]

/-- Witness for C7 at concrete inputs. -/
theorem server_filter_formatter_spec_witness :
    ((1 ≤ ([ServerFilter.fieldE "X"] : List ServerFilter).length) ∧
      ({ filters := [FilterClause.op "=" { id := 3 } []] } : SQuery).filters =
        [FilterClause.op "=" { id := 3 } []] ∧
      renderFrags (getFilterClauseDescription ⟨"T", [⟨3, "Status"⟩], [], []⟩
        (FilterClause.op "=" { id := 3 } [])) =
        (ServerFilter.fieldE "Status").arg) ∧
    (renderFrags (formatFilterDescription [ServerFilter.fieldE "X"]) =
      "Filtered by " ++ String.intercalate ", "
        (([ServerFilter.fieldE "X"] : List ServerFilter).map ServerFilter.arg) ∧
    renderFrags ((getFilterDescription ⟨"T", [⟨3, "Status"⟩], [], []⟩
        ({ filters := [FilterClause.op "=" { id := 3 } []] } : SQuery)).getD []) =
      renderFrags (formatFilterDescription [ServerFilter.fieldE "Status"])) :=
  ⟨⟨by decide, rfl, by decide⟩,
    ⟨server_filter_formatter_spec.1 [ServerFilter.fieldE "X"] (by decide),
      server_filter_formatter_spec.2 ⟨"T", [⟨3, "Status"⟩], [], []⟩
        { filters := [FilterClause.op "=" { id := 3 } []] }
        (FilterClause.op "=" { id := 3 } []) (ServerFilter.fieldE "Status")
        rfl (by decide)⟩⟩

/-! ## Ladder lemmas and the unit-selection specification -/

/-- Ladder units have non-negative indices. -/
theorem unitIndex_nonneg : ∀ u ∈ UNITS, 0 ≤ unitIndex u := by
  intro u hu
  fin_cases hu <;> decide

/-- The ladder index is injective on ladder units. -/
theorem unitIndex_inj : ∀ u ∈ UNITS, ∀ v ∈ UNITS, unitIndex u = unitIndex v → u = v := by
  intro u hu v hv
  fin_cases hu <;> fin_cases hv <;> decide

/-- The only ladder unit fixed by `getNextUnit` is "minute". -/
theorem eq_minute_of_fixed : ∀ u ∈ UNITS, u = getNextUnit u → u = "minute" := by
  intro u hu
  fin_cases hu <;> decide

/-- On the ladder, the `getNextUnit` index drops by exactly one
(Int version). -/
theorem unitIndex_getNextUnit (u : String) (hu : u ∈ UNITS)
    (hne : u ≠ getNextUnit u) :
    getNextUnit u ∈ UNITS ∧ unitIndex (getNextUnit u) + 1 = unitIndex u := by
  fin_cases hu <;> revert hne <;> decide

/-- One unfolding of the unit-selection loop. -/
theorem selectUnit_unfold (d : String → Int) (u : String) :
    selectUnit d u =
      if u ≠ getNextUnit u ∧ d u < MIN_INTERVALS
      then selectUnit d (getNextUnit u) else u := by
  unfold selectUnit
  rw [selectUnitAux]
  split_ifs <;> rfl

/-- The specification of the unit-stepping loop on ladder units: the
selected unit is a ladder unit no coarser than the start unit, the loop
stops only at the ladder bottom or once the range spans at least
`MIN_INTERVALS` intervals of the selected unit, and every unit it skipped
(strictly between the selected one and the start) spanned fewer than
`MIN_INTERVALS` intervals. -/
theorem selectUnit_spec (d : String → Int) :
    ∀ (n : Nat) (u : String), u ∈ UNITS → (unitIndex u).toNat = n →
      selectUnit d u ∈ UNITS ∧
      unitIndex (selectUnit d u) ≤ unitIndex u ∧
      (selectUnit d u = "minute" ∨ MIN_INTERVALS ≤ d (selectUnit d u)) ∧
      (∀ v ∈ UNITS, unitIndex (selectUnit d u) < unitIndex v →
        unitIndex v ≤ unitIndex u → d v < MIN_INTERVALS) := by
  intro n
  induction n using Nat.strong_induction_on with
  | _ n ih =>
    intro u hu hidx
    by_cases hg : u ≠ getNextUnit u ∧ d u < MIN_INTERVALS
    · rw [selectUnit_unfold d u, if_pos hg]
      obtain ⟨hmem, hstep⟩ := unitIndex_getNextUnit u hu hg.1
      have hnn := unitIndex_nonneg _ hmem
      have hnnu := unitIndex_nonneg _ hu
      have hlt : (unitIndex (getNextUnit u)).toNat < n := by omega
      obtain ⟨ih1, ih2, ih3, ih4⟩ := ih _ hlt (getNextUnit u) hmem rfl
      refine ⟨ih1, by omega, ih3, ?_⟩
      intro v hv hlt2 hle2
      rcases Int.lt_or_le (unitIndex (getNextUnit u)) (unitIndex v) with hgt | hle3
      · have hveq : unitIndex v = unitIndex u := by omega
        have : v = u := unitIndex_inj v hv u hu hveq
        rw [this]
        exact hg.2
      · exact ih4 v hv hlt2 hle3
    · rw [selectUnit_unfold d u, if_neg hg]
      push_neg at hg
      refine ⟨hu, le_refl _, ?_, ?_⟩
      · by_cases hfix : u = getNextUnit u
        · exact Or.inl (eq_minute_of_fixed u hu hfix)
        · exact Or.inr (hg hfix)
      · intro v hv hlt2 hle2
        omega

/-! ## C1 and C2: updateDateTimeFilter -/

/-- The breakout of `updateDateTimeFilter`'s result is always the breakout
updated with the chosen unit (the later filter work never touches
breakouts). -/
theorem updateDateTimeFilter_breakout (q : SQuery) (col : Column) (s e : Int)
    (u : String) (hcu : col.unit = some u) (hne : u ≠ "") :
    (updateDateTimeFilter q col s e).breakout =
      (addOrUpdateBreakout q (fieldRefWithTemporalUnit (fieldRefForColumn col)
        (chosenUnit u s e))).breakout := by
  unfold updateDateTimeFilter
  rw [hcu]
  dsimp only
  rw [if_pos hne]
  split_ifs <;> rfl

/-- In the degenerate case (after re-snapping to the original unit, start
falls strictly after end) `updateDateTimeFilter` returns the
breakout-updated query with no filter work at all. -/
theorem updateDateTimeFilter_degenerate_eq (q : SQuery) (col : Column) (s e : Int)
    (u : String) (hcu : col.unit = some u) (hne : u ≠ "")
    (hdeg : startOfUnit u (startOfUnit u (addUnit 1 u s)) >
      startOfUnit u (endOfUnit u e)) :
    updateDateTimeFilter q col s e =
      addOrUpdateBreakout q (fieldRefWithTemporalUnit (fieldRefForColumn col)
        (chosenUnit u s e)) := by
  unfold updateDateTimeFilter
  rw [hcu]
  dsimp only
  rw [if_pos hne, if_pos hdeg]

/-- C2 (amended): when, after re-snapping both bounds to the original column
unit, start is strictly after end, `updateDateTimeFilter` adds or changes no
filter — the filters, aggregations, sorts and limit of the input query are
returned unchanged — but the result is not the input query unmodified: its
breakout has already been updated with the chosen unit. -/
theorem updateDateTimeFilter_degenerate (q : SQuery) (col : Column) (s e : Int)
    (u : String) (hcu : col.unit = some u) (hne : u ≠ "")
    (hdeg : startOfUnit u (startOfUnit u (addUnit 1 u s)) >
      startOfUnit u (endOfUnit u e)) :
    updateDateTimeFilter q col s e =
      addOrUpdateBreakout q (fieldRefWithTemporalUnit (fieldRefForColumn col)
        (chosenUnit u s e)) ∧
    (updateDateTimeFilter q col s e).filters = q.filters ∧
    (updateDateTimeFilter q col s e).aggregation = q.aggregation ∧
    (updateDateTimeFilter q col s e).orderBy = q.orderBy ∧
    (updateDateTimeFilter q col s e).limit = q.limit := by
  have h := updateDateTimeFilter_degenerate_eq q col s e u hcu hne hdeg
  rw [h]
  exact ⟨rfl, rfl, rfl, rfl, rfl⟩

/-- A column displayed at day granularity, for the C1 and C2
counterexamples. -/
def dayColumn : Column := { id := 1, unit := some "day" }

/-- The loop evaluation for the C2 counterexample: a same-day selection
steps day → hour → minute. -/
theorem selectUnitAux_sameday :
    selectUnitAux (clampedDiff "day" 0 0) "day" = ("minute", 2) := by
  rw [selectUnitAux]
  rw [if_pos (by constructor <;> decide)]
  rw [show getNextUnit "day" = "hour" from by decide]
  rw [selectUnitAux]
  rw [if_pos (by constructor <;> decide)]
  rw [show getNextUnit "hour" = "minute" from by decide]
  rw [selectUnitAux]
  rw [if_neg (fun hc => hc.1 (by decide))]

/-- C2 counterexample: for a day-unit column and the degenerate selection
`start = end = 1970-01-01T00:00Z`, the function does not return the input
query unmodified — it returns the query with a breakout (bucketed at the
chosen unit, here "minute") already added; only the filters are untouched. -/
theorem updateDateTimeFilter_degenerate_modifies :
    startOfUnit "day" (startOfUnit "day" (addUnit 1 "day" 0)) >
      startOfUnit "day" (endOfUnit "day" 0) ∧
    (updateDateTimeFilter {} dayColumn 0 0).breakout =
      [{ path := [], id := 1, temporalUnit := some "minute", binning := false }] ∧
    (updateDateTimeFilter {} dayColumn 0 0).breakout ≠ SQuery.breakout {} ∧
    (updateDateTimeFilter {} dayColumn 0 0).filters = SQuery.filters {} := by
  have h1 : chosenUnit "day" 0 0 = "minute" := by
    unfold chosenUnit selectUnit
    rw [selectUnitAux_sameday]
  have hb := updateDateTimeFilter_breakout {} dayColumn 0 0 "day" rfl (by decide)
  have he := updateDateTimeFilter_degenerate_eq {} dayColumn 0 0 "day" rfl (by decide)
    (by decide)
  refine ⟨by decide, ?_, ?_, ?_⟩
  · rw [hb, h1]
    decide
  · rw [hb, h1]
    decide
  · rw [he]
    rfl

/-- Witness for C2 at concrete inputs. -/
theorem updateDateTimeFilter_degenerate_witness :
    ((dayColumn.unit = some "day") ∧ ("day" : String) ≠ "" ∧
      startOfUnit "day" (startOfUnit "day" (addUnit 1 "day" 43200000)) >
        startOfUnit "day" (endOfUnit "day" 43200000)) ∧
    (updateDateTimeFilter {} dayColumn 43200000 43200000 =
      addOrUpdateBreakout {} (fieldRefWithTemporalUnit (fieldRefForColumn dayColumn)
        (chosenUnit "day" 43200000 43200000)) ∧
    (updateDateTimeFilter {} dayColumn 43200000 43200000).filters = SQuery.filters {} ∧
    (updateDateTimeFilter {} dayColumn 43200000 43200000).aggregation =
      SQuery.aggregation {} ∧
    (updateDateTimeFilter {} dayColumn 43200000 43200000).orderBy = SQuery.orderBy {} ∧
    (updateDateTimeFilter {} dayColumn 43200000 43200000).limit = SQuery.limit {}) :=
  ⟨⟨rfl, by decide, by decide⟩,
    updateDateTimeFilter_degenerate {} dayColumn 43200000 43200000 "day" rfl
      (by decide) (by decide)⟩

/-- C1 (amended): for a ladder-unit column, the chosen breakout unit is
obtained by stepping from the column's unit toward finer units until the
clamped range spans at least `MIN_INTERVALS` (4) intervals of the current
unit (or the finest unit, "minute", is reached), never stepping coarser;
the breakout of the result is the query's breakout updated with that
unit. -/
theorem updateDateTimeFilter_unit_selection (q : SQuery) (col : Column) (s e : Int)
    (u : String) (hcu : col.unit = some u) (hne : u ≠ "") (hu : u ∈ UNITS) :
    (updateDateTimeFilter q col s e).breakout =
      (addOrUpdateBreakout q (fieldRefWithTemporalUnit (fieldRefForColumn col)
        (chosenUnit u s e))).breakout ∧
    chosenUnit u s e ∈ UNITS ∧
    unitIndex (chosenUnit u s e) ≤ unitIndex u ∧
    (chosenUnit u s e = "minute" ∨
      MIN_INTERVALS ≤ clampedDiff u s e (chosenUnit u s e)) ∧
    (∀ v ∈ UNITS, unitIndex (chosenUnit u s e) < unitIndex v →
      unitIndex v ≤ unitIndex u → clampedDiff u s e v < MIN_INTERVALS) := by
  refine ⟨updateDateTimeFilter_breakout q col s e u hcu hne, ?_⟩
  exact selectUnit_spec (clampedDiff u s e) (unitIndex u).toNat u hu rfl

/-- The loop evaluation for the C1 counterexample: a two-day selection on a
day-unit column steps day → hour and stops (47 whole hours span the clamped
range). -/
theorem selectUnitAux_twodays :
    selectUnitAux (clampedDiff "day" 777600000 950400000) "day" = ("hour", 1) := by
  rw [selectUnitAux]
  rw [if_pos (by constructor <;> decide)]
  rw [show getNextUnit "day" = "hour" from by decide]
  rw [selectUnitAux]
  rw [if_neg (fun hc => absurd hc.2 (by decide))]

/-- C1 counterexample: for a column with unit "day" and the selected range
1970-01-10T00:00Z to 1970-01-12T00:00Z (spanning 2 days), the chosen
breakout unit is "hour" — strictly finer than "day", not "week" or coarser:
the ladder is walked toward finer units, not coarser ones. -/
theorem updateDateTimeFilter_twodays_hour :
    chosenUnit "day" 777600000 950400000 = "hour" ∧
    (updateDateTimeFilter {} dayColumn 777600000 950400000).breakout =
      [{ path := [], id := 1, temporalUnit := some "hour", binning := false }] ∧
    unitIndex "hour" < unitIndex "day" ∧
    ("hour" : String) ≠ "week" ∧ ("hour" : String) ≠ "month" ∧
    ("hour" : String) ≠ "quarter" ∧ ("hour" : String) ≠ "year" := by
  have h1 : chosenUnit "day" 777600000 950400000 = "hour" := by
    unfold chosenUnit selectUnit
    rw [selectUnitAux_twodays]
  have hb := updateDateTimeFilter_breakout {} dayColumn 777600000 950400000 "day" rfl
    (by decide)
  refine ⟨h1, ?_, by decide, by decide, by decide, by decide, by decide⟩
  rw [hb, h1]
  decide

/-- Witness for C1 at concrete inputs. -/
theorem updateDateTimeFilter_unit_selection_witness :
    ((dayColumn.unit = some "day") ∧ ("day" : String) ≠ "" ∧ "day" ∈ UNITS) ∧
    ((updateDateTimeFilter {} dayColumn 777600000 950400000).breakout =
      (addOrUpdateBreakout {} (fieldRefWithTemporalUnit (fieldRefForColumn dayColumn)
        (chosenUnit "day" 777600000 950400000))).breakout ∧
    chosenUnit "day" 777600000 950400000 ∈ UNITS ∧
    unitIndex (chosenUnit "day" 777600000 950400000) ≤ unitIndex "day" ∧
    (chosenUnit "day" 777600000 950400000 = "minute" ∨
      MIN_INTERVALS ≤ clampedDiff "day" 777600000 950400000
        (chosenUnit "day" 777600000 950400000)) ∧
    (∀ v ∈ UNITS, unitIndex (chosenUnit "day" 777600000 950400000) < unitIndex v →
      unitIndex v ≤ unitIndex "day" →
      clampedDiff "day" 777600000 950400000 v < MIN_INTERVALS)) :=
  ⟨⟨rfl, by decide, by decide⟩,
    updateDateTimeFilter_unit_selection {} dayColumn 777600000 950400000 "day" rfl
      (by decide) (by decide)⟩

end Metabase
